import Mathlib

/-
Verification of the jsonport JSON access library (hand-rolled parser variant).

Shallow embedding conventions:
  * Go byte slices and Go strings are both `GoStr := List Nat` (byte values 0..255).
  * Go's `Json` struct (json.go) becomes the inductive `Json` below, mutually
    defined with its payload `JVal` (the dynamic `interface{}` field `v`);
    the explicit type tag `tp` is kept as a separate field, as in the source.
  * Go errors are modelled by the inductive `Err` (and `SynErr` for the
    parser/skip-engine syntax errors); error identity in the source is
    construction-site identity, which the constructors mirror.
  * Fallible Go functions return pairs with `Option Err`; a Go runtime panic
    (out-of-range slice index) is modelled as `none` of an outer `Option`.
  * Machine integers are `Int`/`Nat`; `int64` overflow behaviour is made
    explicit where the source exercises it.
  * Recursive parsing functions take an explicit fuel argument (structural
    recursion); the exported wrappers supply fuel that dominates the number of
    steps the Go loops can take on the given input.
-/

/-- Go byte strings / byte slices: lists of byte values. -/
abbrev GoStr := List Nat

/-- Alias for `Bool` usable inside the `Json` namespace (where the accessor
`Json.Bool` shadows the name). -/
abbrev GoBool := Bool

/-- The `Type` enum of types.go (`INVALID` is the zero value). -/
inductive JsonType where
  | INVALID
  | OBJECT
  | ARRAY
  | STRING
  | NUMBER
  | BOOL
  | NULL
deriving DecidableEq, Repr

/-- Syntax-error values produced by the parser (parser.go) and the skip engine
(errors.go).  Each constructor corresponds to one `errors.New`/`fmt.Errorf`
construction site; wrapped errors (`fmt.Errorf("...: %s", err)`) keep their
argument. -/
inductive SynErr where
  | strExpectQuote (c : Nat)            -- STRING: expect quote, found c
  | strUnquoteErr                       -- STRING: unquote err
  | strEOF                              -- STRING: end of string err
  | numEOF                              -- parse EOF err
  | unknownType                         -- Unknown type
  | boolNotTF                           -- BOOL: not true nor false
  | nullErr                             -- NULL: parse err
  | objOpenEOF                          -- OBJECT: expect open brace, found EOF
  | objOpen (c : Nat)                   -- OBJECT: expect open brace, found c
  | objCloseEOF                         -- OBJECT: expect close brace, found EOF
  | objName (e : SynErr)                -- OBJECT member.name: e
  | objColon (c : Nat)                  -- OBJECT: expect colon, found c
  | objValue (e : SynErr)               -- OBJECT member.value: e
  | objCommaOrClose (c : Nat)           -- OBJECT: expect comma or close, found c
  | objInternal                         -- OBJECT: internal err   (parser loop exit)
  | objEOF                              -- OBJECT: unexpect EOF   (skip-engine loop exit)
  | arrOpenEOF                          -- ARRAY: expect open bracket, found EOF
  | arrOpen (c : Nat)                   -- ARRAY: expect open bracket, found c
  | arrCloseEOF                         -- ARRAY: expect close bracket, found EOF
  | arrValue (e : SynErr)               -- ARRAY value: e          (parser)
  | arrCommaOrClose (c : Nat)           -- ARRAY: expect comma or close, found c
  | arrInternal                         -- ARRAY: internal err     (parser loop exit)
  | skipArrValue (pos : Nat) (e : SynErr) -- ARRAY: index pos, err e  (skip engine)
  | arrPlain                            -- ARRAY                   (skip-engine loop exit)
  | jsonEOF                             -- JSON: unexpect EOF      (skip engine)
deriving DecidableEq, Repr

/-- Errors of the accessor layer (json.go) together with the wrapped parser
errors and the number-conversion errors of the `Number` type. -/
inductive Err where
  | mismatch (expected found : JsonType)  -- type mismatch: expected t, found j.tp
  | lenNotSupported (t : JsonType)        -- type t not supported Len()
  | eachOfNotSupported (t : JsonType)     -- type t not supported EachOf()
  | keyType                               -- key type not supported (Get)
  | moreBytes                             -- ErrMoreBytes: not all bytes unmarshaled
  | syn (e : SynErr)                      -- a parser syntax error
  | intBad (s : GoStr)                    -- strconv.ParseInt: invalid syntax
  | intRange (s : GoStr)                  -- strconv.ParseInt: value out of range
  | floatBad (s : GoStr)                  -- strconv.ParseFloat: invalid syntax
  | floatRange (s : GoStr)                -- strconv.ParseFloat: value out of range
deriving DecidableEq, Repr

mutual
/-- The dynamic value stored in `Json.v` (`interface{}` in the source); one of
`map[string]Json`, `[]Json`, `Number` (raw literal bytes), `string`, `bool`,
or `nil`.  Objects are association lists in insertion order (Go map iteration
order is unspecified; no claim depends on it). -/
inductive JVal : Type where
  | null : JVal
  | bool : Bool → JVal
  | str : GoStr → JVal
  | num : GoStr → JVal
  | arr : List Json → JVal
  | obj : List (GoStr × Json) → JVal

/-- The `Json` struct of json.go: mode flags `atoi` (StringAsNumber) and `tob`
(AllAsBool), the sticky error `err`, the payload `v` and the type tag `tp`. -/
inductive Json : Type where
  | mk : Bool → Bool → Option Err → JVal → JsonType → Json
end

/-- Field `atoi` (set by StringAsNumber). -/
def Json.atoi : Json → Bool
  | .mk a _ _ _ _ => a

/-- Field `tob` (set by AllAsBool). -/
def Json.tob : Json → Bool
  | .mk _ t _ _ _ => t

/-- Field `err` (the stored sticky error). -/
def Json.err : Json → Option Err
  | .mk _ _ e _ _ => e

/-- Field `v` (the dynamic payload). -/
def Json.v : Json → JVal
  | .mk _ _ _ v _ => v

/-- Field `tp` (the type tag). -/
def Json.tp : Json → JsonType
  | .mk _ _ _ _ tp => tp

/-- The zero `Json` value (`var j Json` / `Json{}`). -/
def zeroJson : Json := .mk false false none .null .INVALID

/-- `const zero = Number("0")` of json.go. -/
def zeroNum : GoStr := [48]

/-- `StringAsNumber` (json.go): sets the `atoi` flag. -/
def Json.StringAsNumber : Json → Json
  | .mk _ t e v tp => .mk true t e v tp

/-- `AllAsBool` (json.go): sets the `tob` flag. -/
def Json.AllAsBool : Json → Json
  | .mk a _ e v tp => .mk a true e v tp

/-- `Type()` (json.go): returns the stored tag. (`Type` is a Lean keyword, so
the embedding calls it `typeOf`.) -/
def Json.typeOf (j : Json) : JsonType := j.tp

/-- `Error()` (json.go): returns the stored error. -/
def Json.Error (j : Json) : Option Err := j.err

/-- `mismatch` (json.go): the stored error if present, else a fresh
type-mismatch error naming the expected and found tags. -/
def Json.mismatchE (j : Json) (t : JsonType) : Err :=
  match j.err with
  | some e => e
  | none => .mismatch t j.tp

/-! ### The `Number` type's conversions.

Modelled from the spec: the `Number` string type with its `Int64`/`Float64`
methods (exact integer parse and approximate double parse, delegating to
`strconv`) is code of this repository that is not under src/ — only its uses
in json.go are.  §3 of the spec: "Supports independent exact-integer
extraction and approximate double extraction; either may fail without
affecting the other"; §4.5 fixes the failure modes (syntax and overflow).
The models follow `strconv.ParseInt(s, 10, 64)` and
`strconv.ParseFloat(s, 64)` semantics. -/

/-- ASCII decimal digit test. -/
def isDigit (c : Nat) : Bool := decide (48 ≤ c ∧ c ≤ 57)

/-- Value of a list of ASCII decimal digits. -/
def digitsVal (l : GoStr) : Nat := l.foldl (fun a c => a * 10 + (c - 48)) 0

/-- Modelled from the spec: `Number.Int64`, i.e. `strconv.ParseInt(s, 10, 64)`:
optional sign, then at least one decimal digit and nothing else; the value is
clamped to the int64 range, with a range error when it does not fit (Go
returns the clamped value alongside `ErrRange`). -/
def parseInt64 (s : GoStr) : Int × Option Err :=
  let (neg, s1) : Bool × GoStr :=
    match s with
    | 45 :: r => (true, r)
    | 43 :: r => (false, r)
    | _ => (false, s)
  if s1 = [] ∨ ¬ s1.all isDigit then (0, some (.intBad s))
  else
    let v := digitsVal s1
    if neg then
      if v ≤ Nat.pow 2 63 then (-(v : Int), none)
      else (-((Nat.pow 2 63 : ℕ) : Int), some (.intRange s))
    else
      if v ≤ Nat.pow 2 63 - 1 then ((v : Int), none)
      else (((Nat.pow 2 63 - 1 : ℕ) : Int), some (.intRange s))

/-- Largest magnitude that still rounds to a finite float64
(2^1024 − 2^970 is the first value that rounds to infinity). -/
def floatMaxBound : ℚ := ((Nat.pow 2 1024 - Nat.pow 2 970 : ℕ) : ℚ)

/-- Magnitudes at or below this round to zero (half the smallest subnormal). -/
def floatMinBound : ℚ := mkRat 1 (Nat.pow 2 1075)

/-- Modelled from the spec: `Number.Float64`, i.e. `strconv.ParseFloat(s, 64)`
on decimal literals: optional sign, decimal mantissa with optional fraction,
optional decimal exponent; the whole string must be consumed.  The value is
modelled as the exact rational of the literal (the spec's "approximate double
extraction"; all comparisons made of it by the claims are exact at the inputs
involved).  Magnitudes rounding to ±Inf or to 0 give a range error, as in Go
(Go returns ±Inf resp. ±0 alongside the error; the model returns the error
alone, and no claim observes the value on the error path).  Go's hex-float
and Inf/NaN spellings are not modelled: no JSON scanner output takes those
forms. -/
def parseFloat64 (s : GoStr) : Except Err ℚ :=
  let (neg, s1) : Bool × GoStr :=
    match s with
    | 45 :: r => (true, r)
    | 43 :: r => (false, r)
    | _ => (false, s)
  let ip := s1.takeWhile isDigit
  let s2 := s1.dropWhile isDigit
  let (fp, s3) : GoStr × GoStr :=
    match s2 with
    | 46 :: r => (r.takeWhile isDigit, r.dropWhile isDigit)
    | _ => ([], s2)
  let expPart : Option Int :=
    match s3 with
    | [] => some 0
    | 101 :: r =>
      let (esgn, r2) : Bool × GoStr :=
        match r with
        | 45 :: rr => (true, rr)
        | 43 :: rr => (false, rr)
        | _ => (false, r)
      let ed := r2.takeWhile isDigit
      if ed = [] ∨ r2.dropWhile isDigit ≠ [] then none
      else some (if esgn then -(digitsVal ed : Int) else (digitsVal ed : Int))
    | 69 :: r =>
      let (esgn, r2) : Bool × GoStr :=
        match r with
        | 45 :: rr => (true, rr)
        | 43 :: rr => (false, rr)
        | _ => (false, r)
      let ed := r2.takeWhile isDigit
      if ed = [] ∨ r2.dropWhile isDigit ≠ [] then none
      else some (if esgn then -(digitsVal ed : Int) else (digitsVal ed : Int))
    | _ => none
  match expPart with
  | none => .error (.floatBad s)
  | some ex =>
    if ip = [] ∧ fp = [] then .error (.floatBad s)
    else
      let m := digitsVal (ip ++ fp)
      let e : Int := ex - fp.length
      let mag : ℚ := if 0 ≤ e then ((m * Nat.pow 10 e.toNat : ℕ) : ℚ) else mkRat (m : Int) (Nat.pow 10 (-e).toNat)
      let q : ℚ := if neg then -mag else mag
      if floatMaxBound ≤ |q| then .error (.floatRange s)
      else if q ≠ 0 ∧ |q| ≤ floatMinBound then .error (.floatRange s)
      else .ok q

/-- Truncation toward zero of a rational (Go's float-to-int conversion step). -/
def truncQ (q : ℚ) : Int := q.num.tdiv (q.den : Int)

/-- Go's `int64(f)` conversion of a float64: truncation toward zero when the
result fits int64; outside that range the Go result is implementation-defined
and amd64 yields −2^63, which is what the model uses (no claim depends on the
out-of-range value, only on the absence of an error). -/
def goInt64ofFloat (q : ℚ) : Int :=
  let t := truncQ q
  if -((Nat.pow 2 63 : ℕ) : Int) ≤ t ∧ t < ((Nat.pow 2 63 : ℕ) : Int) then t
  else -((Nat.pow 2 63 : ℕ) : Int)

/-- The guard constant `9.223372036e+21` of `Json.Int` (json.go line 145),
exact: the Go literal denotes 9223372036·10^12 rounded to double, and the
only claim-relevant comparison against it is at a literal with that same
rounding. -/
def overflowBound : ℚ := ((9223372036 * Nat.pow 10 12 : ℕ) : ℚ)

/-! ### Accessors and coercions (json.go). -/

/-- `String()` (json.go). -/
def Json.String (j : Json) : GoStr × Option Err :=
  match j.v with
  | .str s => (s, none)
  | _ => ([], some (j.mismatchE .STRING))

/-- `number()` (json.go): the raw `Number`, or the string payload reinterpreted
when `atoi` is set. -/
def Json.number (j : Json) : GoStr × Option Err :=
  match j.v with
  | .num n => (n, none)
  | _ =>
    if !j.atoi then (zeroNum, some (j.mismatchE .NUMBER))
    else
      match j.v with
      | .str s => (s, none)
      | _ => (zeroNum, some (j.mismatchE .NUMBER))

/-- `Float()` (json.go).  (On the error path Go returns the ±Inf/0 produced by
`strconv` alongside the error; the model returns 0 — no claim observes it.) -/
def Json.Float (j : Json) : ℚ × Option Err :=
  match j.number with
  | (_, some e) => (0, some e)
  | (n, none) =>
    match parseFloat64 n with
    | .ok f => (f, none)
    | .error e => (0, some e)

/-- `Int()` (json.go): exact int64 parse; on failure fall back to the float
value when it lies strictly between ±9.223372036e21, else report the int64
parse error. -/
def Json.Int (j : Json) : ℤ × Option Err :=
  match j.number with
  | (_, some e) => (0, some e)
  | (n, none) =>
    let (i, errI) := parseInt64 n
    match errI with
    | none => (i, none)
    | some eI =>
      match parseFloat64 n with
      | .ok f =>
        if f < overflowBound ∧ -overflowBound < f then (goInt64ofFloat f, none)
        else (i, some eI)
      | .error _ => (i, some eI)

/-- `Len()` (json.go): byte length of a string, element count of an array,
pair count of an object; other tags get a fresh unsupported-operation error. -/
def Json.Len (j : Json) : ℤ × Option Err :=
  match j.v with
  | .str s => ((s.length : ℤ), none)
  | .arr a => ((a.length : ℤ), none)
  | .obj m => ((m.length : ℤ), none)
  | _ => (0, some (.lenNotSupported j.typeOf))

/-- `Bool()` (json.go). -/
def Json.Bool (j : Json) : GoBool × Option Err :=
  match j.v with
  | .bool b => (b, none)
  | _ =>
    if !j.tob then (false, some (j.mismatchE .BOOL))
    else
      match j.typeOf with
      | .STRING => (match j.Len with | (l, e) => (decide (0 < l), e))
      | .ARRAY => (match j.Len with | (l, e) => (decide (0 < l), e))
      | .OBJECT => (match j.Len with | (l, e) => (decide (0 < l), e))
      | .NUMBER => (match j.Float with | (f, e) => (decide (f ≠ 0), e))
      | .NULL => (false, none)
      | _ => (false, some (j.mismatchE .BOOL))

/-- Association-list lookup modelling Go's `m[name]`. -/
def lookupGo : List (GoStr × Json) → GoStr → Option Json
  | [], _ => none
  | (k, v) :: rest, key => if k = key then some v else lookupGo rest key

/-- Association-list update modelling Go's `m[k] = v` (replace or append). -/
def insertGo : List (GoStr × Json) → GoStr → Json → List (GoStr × Json)
  | [], k, v => [(k, v)]
  | (k0, v0) :: rest, k, v =>
    if k0 = k then (k0, v) :: rest else (k0, v0) :: insertGo rest k v

/-- `Keys()` (json.go). -/
def Json.Keys (j : Json) : List GoStr × Option Err :=
  match j.v with
  | .obj m => (m.map Prod.fst, none)
  | _ => ([], some (j.mismatchE .OBJECT))

/-- `Values()` (json.go). -/
def Json.Values (j : Json) : List Json × Option Err :=
  match j.v with
  | .obj m => (m.map Prod.snd, none)
  | _ => ([], some (j.mismatchE .OBJECT))

/-- `Member(name)` (json.go): look a member up in an object, keeping the
receiver's flags and error; absent members give a NULL-tagged value; a
non-object receiver gives an invalid value carrying `mismatch(OBJECT)`. -/
def Json.Member (j : Json) (name : GoStr) : Json :=
  match j.v with
  | .obj m =>
    match lookupGo m name with
    | none => .mk j.atoi j.tob j.err .null .NULL
    | some mv => .mk j.atoi j.tob j.err mv.v mv.tp
  | _ => .mk false false (some (j.mismatchE .OBJECT)) .null .INVALID

/-- `Element(i)` (json.go): index an array, keeping the receiver's flags and
error; out-of-range (including negative) indices give a NULL-tagged value; a
non-array receiver gives an invalid value carrying `mismatch(ARRAY)`. -/
def Json.Element (j : Json) (i : ℤ) : Json :=
  match j.v with
  | .arr arr =>
    if i < 0 ∨ (arr.length : ℤ) - 1 < i then .mk j.atoi j.tob j.err .null .NULL
    else
      let e := arr.getD i.toNat zeroJson
      .mk j.atoi j.tob j.err e.v e.tp
  | _ => .mk false false (some (j.mismatchE .ARRAY)) .null .INVALID

/-- `Array()` (json.go). -/
def Json.Array (j : Json) : List Json × Option Err :=
  match j.v with
  | .arr arr => (arr, none)
  | _ => ([], some (j.mismatchE .ARRAY))

/-- Element-wise int64 conversion used by `IntArray()`. -/
def intArrayLoop : List Json → List Int × Option Err
  | [] => ([], none)
  | e :: rest =>
    match e.Int with
    | (_, some er) => ([], some er)
    | (n, none) =>
      match intArrayLoop rest with
      | (_, some er) => ([], some er)
      | (l, none) => (n :: l, none)

/-- `IntArray()` (json.go): converts every element, atomically. -/
def Json.IntArray (j : Json) : List ℤ × Option Err :=
  match j.Array with
  | (_, some e) => ([], some e)
  | (arr, none) => intArrayLoop arr

/-- Element-wise float conversion used by `FloatArray()`. -/
def floatArrayLoop : List Json → List ℚ × Option Err
  | [] => ([], none)
  | e :: rest =>
    match e.Float with
    | (_, some er) => ([], some er)
    | (n, none) =>
      match floatArrayLoop rest with
      | (_, some er) => ([], some er)
      | (l, none) => (n :: l, none)

/-- `FloatArray()` (json.go). -/
def Json.FloatArray (j : Json) : List ℚ × Option Err :=
  match j.Array with
  | (_, some e) => ([], some e)
  | (arr, none) => floatArrayLoop arr

/-- Element-wise bool conversion used by `BoolArray()`. -/
def boolArrayLoop : List Json → List Bool × Option Err
  | [] => ([], none)
  | e :: rest =>
    match e.Bool with
    | (_, some er) => ([], some er)
    | (b, none) =>
      match boolArrayLoop rest with
      | (_, some er) => ([], some er)
      | (l, none) => (b :: l, none)

/-- `BoolArray()` (json.go). -/
def Json.BoolArray (j : Json) : List GoBool × Option Err :=
  match j.Array with
  | (_, some e) => ([], some e)
  | (arr, none) => boolArrayLoop arr

/-- Element-wise string conversion used by `StringArray()`. -/
def stringArrayLoop : List Json → List GoStr × Option Err
  | [] => ([], none)
  | e :: rest =>
    match e.String with
    | (_, some er) => ([], some er)
    | (s, none) =>
      match stringArrayLoop rest with
      | (_, some er) => ([], some er)
      | (l, none) => (s :: l, none)

/-- `StringArray()` (json.go). -/
def Json.StringArray (j : Json) : List GoStr × Option Err :=
  match j.Array with
  | (_, some e) => ([], some e)
  | (arr, none) => stringArrayLoop arr

/-- A `Get` path segment: a member name, an element index (every native Go
integer width is converted to `int` at the call site), or a value of any
other type (the unsupported default case). -/
inductive GoKey where
  | name (s : GoStr)
  | idx (i : Int)
  | other
deriving DecidableEq, Repr

/-- `Get(keys...)` (json.go): apply Member/Element per segment, stopping at the
first stored error; an unsupported segment kind yields a fresh key-type
error. -/
def Json.Get (j : Json) : List GoKey → Json
  | [] => j
  | k :: ks =>
    match j.err with
    | some _ => j
    | none =>
      match k with
      | .idx i => (j.Element i).Get ks
      | .name s => (j.Member s).Get ks
      | .other => .mk false false (some .keyType) .null .INVALID

/-- `GetInt(keys...)` (json.go). -/
def Json.GetInt (j : Json) (ks : List GoKey) : ℤ × Option Err := (j.Get ks).Int

/-- `GetString(keys...)` (json.go). -/
def Json.GetString (j : Json) (ks : List GoKey) : GoStr × Option Err := (j.Get ks).String

/-- Element-wise `Get(keys...)` used by `EachOf`. -/
def eachOfLoop (ks : List GoKey) : List Json → Except Err (List Json)
  | [] => .ok []
  | e :: rest =>
    let jj := e.Get ks
    match jj.err with
    | some er => .error er
    | none =>
      match eachOfLoop ks rest with
      | .error er => .error er
      | .ok l => .ok (jj :: l)

/-- `EachOf(keys...)` (json.go): map `Get(keys...)` over an array's elements or
an object's values; any other receiver tag gets a fresh unsupported-operation
error. -/
def Json.EachOf (j : Json) (ks : List GoKey) : Json :=
  let pre : Except Err (List Json) :=
    if j.typeOf = .ARRAY then
      match j.Array with
      | (a, none) => .ok a
      | (_, some e) => .error e
    else if j.typeOf = .OBJECT then
      match j.Values with
      | (vs, none) => .ok vs
      | (_, some e) => .error e
    else .error (.eachOfNotSupported j.typeOf)
  match pre with
  | .error e => .mk false false (some e) .null .INVALID
  | .ok arr =>
    match eachOfLoop ks arr with
    | .error e => .mk false false (some e) .null .INVALID
    | .ok l => .mk false false none (.arr l) .ARRAY

/-! ### Claims about the accessor layer. -/

/-- C2 (counterexample): the claim says every operation on an Invalid Value
returns exactly the stored error; but `Len()` on an Invalid Value (stored
error: the key-type error) returns a freshly derived unsupported-operation
error instead of the stored one. -/
theorem C2_len_not_sticky :
    Json.Len (Json.mk false false (some .keyType) .null .INVALID)
      = (0, some (Err.lenNotSupported .INVALID))
    ∧ Err.lenNotSupported .INVALID ≠ Err.keyType := by
  exact ⟨rfl, by decide⟩

/-- C2 (amended): on an Invalid Value (stored error `e`, nil payload, INVALID
tag — the only shape the code ever constructs), String, Float, Int, Bool,
Keys, Values, Member, Element, Array, IntArray/FloatArray/BoolArray/
StringArray and Get all return exactly the stored error `e`; but Len returns
a fresh `lenNotSupported INVALID` error and EachOf a fresh
`eachOfNotSupported INVALID` error, regardless of `e`. -/
theorem C2_sticky_amended (a t : Bool) (e : Err) (name : GoStr) (i : ℤ)
    (ks : List GoKey) :
    Json.String (Json.mk a t (some e) .null .INVALID) = ([], some e)
    ∧ Json.Float (Json.mk a t (some e) .null .INVALID) = (0, some e)
    ∧ Json.Int (Json.mk a t (some e) .null .INVALID) = (0, some e)
    ∧ Json.Bool (Json.mk a t (some e) .null .INVALID) = (false, some e)
    ∧ Json.Keys (Json.mk a t (some e) .null .INVALID) = ([], some e)
    ∧ Json.Values (Json.mk a t (some e) .null .INVALID) = ([], some e)
    ∧ Json.Member (Json.mk a t (some e) .null .INVALID) name
        = Json.mk false false (some e) .null .INVALID
    ∧ Json.Element (Json.mk a t (some e) .null .INVALID) i
        = Json.mk false false (some e) .null .INVALID
    ∧ Json.Array (Json.mk a t (some e) .null .INVALID) = ([], some e)
    ∧ Json.IntArray (Json.mk a t (some e) .null .INVALID) = ([], some e)
    ∧ Json.FloatArray (Json.mk a t (some e) .null .INVALID) = ([], some e)
    ∧ Json.BoolArray (Json.mk a t (some e) .null .INVALID) = ([], some e)
    ∧ Json.StringArray (Json.mk a t (some e) .null .INVALID) = ([], some e)
    ∧ Json.Get (Json.mk a t (some e) .null .INVALID) ks
        = Json.mk a t (some e) .null .INVALID
    ∧ Json.Len (Json.mk a t (some e) .null .INVALID)
        = (0, some (Err.lenNotSupported .INVALID))
    ∧ Json.EachOf (Json.mk a t (some e) .null .INVALID) ks
        = Json.mk false false (some (Err.eachOfNotSupported .INVALID)) .null .INVALID := by
  refine ⟨rfl, ?_, ?_, ?_, rfl, rfl, rfl, rfl, rfl, rfl, rfl, rfl, rfl, ?_, rfl, rfl⟩
  · cases a <;> rfl
  · cases a <;> rfl
  · cases t <;> rfl
  · cases ks <;> rfl

/-- The byte string `1e19`. -/
def numLit1e19 : GoStr := [49, 101, 49, 57]

/-- The byte string `9223372036854775807` (int64 max). -/
def numLitMax : GoStr := [57, 50, 50, 51, 51, 55, 50, 48, 51, 54, 56, 53, 52, 55, 55, 53, 56, 48, 55]

/-- The byte string `9223372036000000000000`. -/
def numLitBig : GoStr :=
  [57, 50, 50, 51, 51, 55, 50, 48, 51, 54, 48, 48, 48, 48, 48, 48, 48, 48, 48, 48, 48, 48]

/-- The byte string `1e9999`. -/
def numLitExp : GoStr := [49, 101, 57, 57, 57, 57]

set_option exponentiation.threshold 20000 in
set_option maxRecDepth 10000 in
/-- C3 (counterexample): the claim says `Int()` truncates the float fallback
exactly when the magnitude fits the int64 range and returns an overflow error
otherwise; but on the Number `1e19` — whose magnitude 10^19 exceeds the int64
range — `Int()` returns no error at all (the fallback guard in the code is
±9.223372036e21, about a thousand times the int64 range; the conversion
result is Go-implementation-defined, −2^63 on amd64). -/
theorem C3_int_no_overflow_error :
    Json.Int (Json.mk false false none (.num numLit1e19) .NUMBER)
      = (-9223372036854775808, none) := by
  decide

set_option exponentiation.threshold 20000 in
set_option maxRecDepth 10000 in
/-- C3 (amended): `Int()` returns the exact value whenever the int64 decimal
parse succeeds (in particular `9223372036854775807` gives exactly int64 max,
and a String payload behaves like a Number when string-as-number is set);
when the int64 parse fails, `Int()` falls back to the float value exactly
when that parse succeeds with a value strictly between ±9.223372036e21 —
a bound far beyond the int64 range, so the fallback can return an
implementation-defined value with no error — and otherwise returns the int64
parse error: `9223372036000000000000` fails with a range (overflow) error and
`1e9999` fails with the int64 syntax error (its float parse overflows). -/
theorem C3_int_amended :
    (∀ (a t : Bool) (s : GoStr) (v : ℤ), parseInt64 s = (v, none) →
        Json.Int (Json.mk a t none (.num s) .NUMBER) = (v, none))
    ∧ (∀ (t : Bool) (s : GoStr),
        Json.Int (Json.mk true t none (.str s) .STRING)
          = Json.Int (Json.mk true t none (.num s) .NUMBER))
    ∧ Json.Int (Json.mk false false none (.num numLitMax) .NUMBER)
        = (9223372036854775807, none)
    ∧ Json.Int (Json.mk false false none (.num numLitBig) .NUMBER)
        = (9223372036854775807, some (Err.intRange numLitBig))
    ∧ Json.Int (Json.mk false false none (.num numLitExp) .NUMBER)
        = (0, some (Err.intBad numLitExp))
    ∧ (∀ (a t : Bool) (s : GoStr) (i0 : ℤ) (e0 : Err) (f : ℚ),
        parseInt64 s = (i0, some e0) → parseFloat64 s = .ok f →
        ((f < overflowBound ∧ -overflowBound < f) →
            Json.Int (Json.mk a t none (.num s) .NUMBER) = (goInt64ofFloat f, none))
        ∧ (¬ (f < overflowBound ∧ -overflowBound < f) →
            Json.Int (Json.mk a t none (.num s) .NUMBER) = (i0, some e0)))
    ∧ (∀ (a t : Bool) (s : GoStr) (i0 : ℤ) (e0 e1 : Err),
        parseInt64 s = (i0, some e0) → parseFloat64 s = .error e1 →
        Json.Int (Json.mk a t none (.num s) .NUMBER) = (i0, some e0)) := by
  refine ⟨?_, ?_, by decide, by decide, by decide, ?_, ?_⟩
  · intro a t s v h
    simp [Json.Int, Json.number, Json.v, Json.atoi, h]
  · intro t s
    rfl
  · intro a t s i0 e0 f h hf
    constructor
    · intro hguard
      simp [Json.Int, Json.number, Json.v, Json.atoi, h, hf, hguard]
    · intro hguard
      simp [Json.Int, Json.number, Json.v, Json.atoi, h, hf, hguard]
  · intro a t s i0 e0 e1 h hf
    simp [Json.Int, Json.number, Json.v, Json.atoi, h, hf]

set_option exponentiation.threshold 20000 in
set_option maxRecDepth 10000 in
set_option exponentiation.threshold 20000 in
set_option maxRecDepth 10000 in
/-- C3 witness: instantiating the amended claim's quantified parts at concrete
inputs: the exact path at `42`, the fallback path at `1e19`. -/
theorem C3_int_amended_witness :
    Json.Int (Json.mk false false none (.num [52, 50]) .NUMBER) = (42, none)
    ∧ Json.Int (Json.mk false false none (.num numLit1e19) .NUMBER)
      = (goInt64ofFloat 10000000000000000000, none) := by
  constructor
  · exact C3_int_amended.1 false false [52, 50] 42 (by decide)
  · exact (C3_int_amended.2.2.2.2.2.1 false false numLit1e19 0 (.intBad numLit1e19)
      10000000000000000000 (by decide) (by rfl)).1 (by decide)

/-- C4: Member on an Object with an absent name gives a NULL-tagged value with
no error; Element on an Array at or beyond its length gives a NULL-tagged
value with no error; Member on a non-Object receiver (no stored error) gives
an Invalid value carrying `mismatch(expected OBJECT, found tag)`; Element on
a non-Array receiver gives an Invalid value carrying
`mismatch(expected ARRAY, found tag)`. -/
theorem C4_navigation :
    (∀ (a t : Bool) (m : List (GoStr × Json)) (name : GoStr),
        lookupGo m name = none →
        Json.Member (Json.mk a t none (.obj m) .OBJECT) name
          = Json.mk a t none .null .NULL)
    ∧ (∀ (a t : Bool) (arr : List Json) (i : ℤ), (arr.length : ℤ) ≤ i →
        Json.Element (Json.mk a t none (.arr arr) .ARRAY) i
          = Json.mk a t none .null .NULL)
    ∧ (∀ (a t : Bool) (v : JVal) (tp : JsonType) (name : GoStr),
        (∀ m, v ≠ JVal.obj m) →
        Json.Member (Json.mk a t none v tp) name
          = Json.mk false false (some (.mismatch .OBJECT tp)) .null .INVALID)
    ∧ (∀ (a t : Bool) (v : JVal) (tp : JsonType) (i : ℤ),
        (∀ arr, v ≠ JVal.arr arr) →
        Json.Element (Json.mk a t none v tp) i
          = Json.mk false false (some (.mismatch .ARRAY tp)) .null .INVALID) := by
  refine ⟨?_, ?_, ?_, ?_⟩
  · intro a t m name h
    simp [Json.Member, Json.v, Json.atoi, Json.tob, Json.err, h]
  · intro a t arr i h
    have hc : i < 0 ∨ (arr.length : ℤ) - 1 < i := Or.inr (by omega)
    simp [Json.Element, Json.v, Json.atoi, Json.tob, Json.err, hc]
  · intro a t v tp name h
    cases v with
    | obj m => exact absurd rfl (h m)
    | null => rfl
    | bool b => rfl
    | str s => rfl
    | num n => rfl
    | arr l => rfl
  · intro a t v tp i h
    cases v with
    | arr l => exact absurd rfl (h l)
    | null => rfl
    | bool b => rfl
    | str s => rfl
    | num n => rfl
    | obj m => rfl

/-- C4 witness: the four parts at concrete inputs — a missing member of `{}`,
index 0 of `[]`, and Member/Element on the Number 1 (expected OBJECT resp.
ARRAY, found NUMBER). -/
theorem C4_navigation_witness :
    Json.Member (Json.mk false false none (.obj []) .OBJECT) [97]
      = Json.mk false false none .null .NULL
    ∧ Json.Element (Json.mk false false none (.arr []) .ARRAY) 0
      = Json.mk false false none .null .NULL
    ∧ Json.Member (Json.mk false false none (.num [49]) .NUMBER) [120]
      = Json.mk false false (some (.mismatch .OBJECT .NUMBER)) .null .INVALID
    ∧ Json.Element (Json.mk false false none (.num [49]) .NUMBER) 0
      = Json.mk false false (some (.mismatch .ARRAY .NUMBER)) .null .INVALID := by
  refine ⟨?_, ?_, ?_, ?_⟩
  · exact C4_navigation.1 false false [] [97] rfl
  · exact C4_navigation.2.1 false false [] 0 (by decide)
  · exact C4_navigation.2.2.1 false false (.num [49]) .NUMBER [120] (fun m h => nomatch h)
  · exact C4_navigation.2.2.2 false false (.num [49]) .NUMBER 0 (fun arr h => nomatch h)

/-- C7: enabling StringAsNumber or AllAsBool twice yields the same value state
as enabling it once, and neither flag affects Type, Len, Keys, or the
navigation outcome (payload, tag and error) of Member and Element — flags are
carried per value by copy, so Member/Element merely propagate them to the
result, as the data model prescribes. -/
theorem C7_mode_flags :
    (∀ j : Json, j.StringAsNumber.StringAsNumber = j.StringAsNumber)
    ∧ (∀ j : Json, j.AllAsBool.AllAsBool = j.AllAsBool)
    ∧ (∀ j : Json, j.StringAsNumber.typeOf = j.typeOf ∧ j.AllAsBool.typeOf = j.typeOf)
    ∧ (∀ j : Json, j.StringAsNumber.Len = j.Len ∧ j.AllAsBool.Len = j.Len)
    ∧ (∀ j : Json, j.StringAsNumber.Keys = j.Keys ∧ j.AllAsBool.Keys = j.Keys)
    ∧ (∀ (j : Json) (name : GoStr),
        ((j.StringAsNumber.Member name).v = (j.Member name).v
          ∧ (j.StringAsNumber.Member name).tp = (j.Member name).tp
          ∧ (j.StringAsNumber.Member name).err = (j.Member name).err)
        ∧ ((j.AllAsBool.Member name).v = (j.Member name).v
          ∧ (j.AllAsBool.Member name).tp = (j.Member name).tp
          ∧ (j.AllAsBool.Member name).err = (j.Member name).err))
    ∧ (∀ (j : Json) (i : ℤ),
        ((j.StringAsNumber.Element i).v = (j.Element i).v
          ∧ (j.StringAsNumber.Element i).tp = (j.Element i).tp
          ∧ (j.StringAsNumber.Element i).err = (j.Element i).err)
        ∧ ((j.AllAsBool.Element i).v = (j.Element i).v
          ∧ (j.AllAsBool.Element i).tp = (j.Element i).tp
          ∧ (j.AllAsBool.Element i).err = (j.Element i).err)) := by
  refine ⟨?_, ?_, ?_, ?_, ?_, ?_, ?_⟩
  · intro j; cases j; rfl
  · intro j; cases j; rfl
  · intro j; cases j; exact ⟨rfl, rfl⟩
  · intro j
    cases j with
    | mk a t e v tp => cases v <;> exact ⟨rfl, rfl⟩
  · intro j
    cases j with
    | mk a t e v tp => cases v <;> exact ⟨rfl, rfl⟩
  · intro j name
    cases j with
    | mk a t e v tp =>
      cases v with
      | obj m =>
        cases h : lookupGo m name <;>
          simp [Json.Member, Json.StringAsNumber, Json.AllAsBool, Json.v, Json.tp,
            Json.err, Json.atoi, Json.tob, Json.mismatchE, h]
      | null => exact ⟨⟨rfl, rfl, rfl⟩, rfl, rfl, rfl⟩
      | bool b => exact ⟨⟨rfl, rfl, rfl⟩, rfl, rfl, rfl⟩
      | str s => exact ⟨⟨rfl, rfl, rfl⟩, rfl, rfl, rfl⟩
      | num n => exact ⟨⟨rfl, rfl, rfl⟩, rfl, rfl, rfl⟩
      | arr l => exact ⟨⟨rfl, rfl, rfl⟩, rfl, rfl, rfl⟩
  · intro j i
    cases j with
    | mk a t e v tp =>
      cases v with
      | arr l =>
        by_cases h : i < 0 ∨ (l.length : ℤ) - 1 < i <;>
          simp [Json.Element, Json.StringAsNumber, Json.AllAsBool, Json.v, Json.tp,
            Json.err, Json.atoi, Json.tob, Json.mismatchE, h]
      | null => exact ⟨⟨rfl, rfl, rfl⟩, rfl, rfl, rfl⟩
      | bool b => exact ⟨⟨rfl, rfl, rfl⟩, rfl, rfl, rfl⟩
      | str s => exact ⟨⟨rfl, rfl, rfl⟩, rfl, rfl, rfl⟩
      | num n => exact ⟨⟨rfl, rfl, rfl⟩, rfl, rfl, rfl⟩
      | obj m => exact ⟨⟨rfl, rfl, rfl⟩, rfl, rfl, rfl⟩

/-- C10: for every Array-tagged value and every negative index −(n+1),
Element yields a NULL-tagged value with no error, identical to the result for
the out-of-range non-negative index `length`, and the result keeps the
receiver's mode flags. -/
theorem C10_negative_index (a t : Bool) (arr : List Json) (n : Nat) :
    Json.Element (Json.mk a t none (.arr arr) .ARRAY) (-(n : ℤ) - 1)
      = Json.mk a t none .null .NULL
    ∧ Json.Element (Json.mk a t none (.arr arr) .ARRAY) (-(n : ℤ) - 1)
      = Json.Element (Json.mk a t none (.arr arr) .ARRAY) (arr.length : ℤ)
    ∧ (Json.Element (Json.mk a t none (.arr arr) .ARRAY) (-(n : ℤ) - 1)).atoi = a
    ∧ (Json.Element (Json.mk a t none (.arr arr) .ARRAY) (-(n : ℤ) - 1)).tob = t := by
  have e1 : ∀ i : ℤ, (i < 0 ∨ (arr.length : ℤ) - 1 < i) →
      Json.Element (Json.mk a t none (.arr arr) .ARRAY) i = Json.mk a t none .null .NULL := by
    intro i hi
    show (if i < 0 ∨ (arr.length : ℤ) - 1 < i then Json.mk a t none .null .NULL else _)
      = Json.mk a t none .null .NULL
    rw [if_pos hi]
  have h1 := e1 (-(n : ℤ) - 1) (Or.inl (by omega))
  have h2 := e1 ((arr.length : ℤ)) (Or.inr (by omega))
  refine ⟨h1, h1.trans h2.symm, ?_, ?_⟩ <;> rw [h1] <;> rfl

/-! ### Scanners (parser.go) and string unescaping. -/

/-- `isSpace` (parser.go): space, tab, LF, CR, VT, FF. -/
def isSpace (b : Nat) : Bool :=
  b == 32 || b == 9 || b == 10 || b == 13 || b == 11 || b == 12

/-- `skipSpace` (parser.go): index of the first non-space byte (or the length). -/
def skipSpace : GoStr → Nat
  | [] => 0
  | c :: rest => if isSpace c then skipSpace rest + 1 else 0

/-- `utf16.IsSurrogate`. -/
def isSurrogateGo (r : Int) : Bool := decide (55296 ≤ r ∧ r < 57344)

/-- `utf16.DecodeRune`: combine a UTF-16 surrogate pair, or give U+FFFD. -/
def utf16DecodeGo (r1 r2 : Int) : Int :=
  if 55296 ≤ r1 ∧ r1 < 56320 ∧ 56320 ≤ r2 ∧ r2 < 57344 then
    (r1 - 55296) * 1024 + (r2 - 56320) + 65536
  else 65533

/-- Go's `uint32(r)` conversion of a rune. -/
def u32 (r : Int) : Nat := (r % 4294967296).toNat

/-- `utf8.EncodeRune`: UTF-8 encoding; surrogates and out-of-range runes
encode U+FFFD. -/
def encodeRuneGo (r : Int) : GoStr :=
  let i := u32 r
  if i ≤ 127 then [i]
  else if i ≤ 2047 then [192 + i / 64, 128 + i % 64]
  else if 1114111 < i ∨ (55296 ≤ i ∧ i ≤ 57343) then [239, 191, 189]
  else if i ≤ 65535 then [224 + i / 4096, 128 + i / 64 % 64, 128 + i % 64]
  else [240 + i / 262144, 128 + i / 4096 % 64, 128 + i / 64 % 64, 128 + i % 64]

/-- `utf8.DecodeRune`: first rune of a byte string with its size; malformed
or short encodings give (U+FFFD, 1) (or size 0 on empty input), as in Go. -/
def decodeRuneGo : GoStr → Int × Nat
  | [] => (65533, 0)
  | b0 :: rest =>
    if b0 < 128 then ((b0 : Int), 1)
    else if b0 < 194 then (65533, 1)
    else if b0 < 224 then
      match rest with
      | b1 :: _ =>
        if 128 ≤ b1 ∧ b1 ≤ 191 then (((b0 - 192) * 64 + (b1 - 128) : Nat), 2)
        else (65533, 1)
      | [] => (65533, 1)
    else if b0 < 240 then
      match rest with
      | b1 :: b2 :: _ =>
        let lo := if b0 = 224 then 160 else 128
        let hi := if b0 = 237 then 159 else 191
        if lo ≤ b1 ∧ b1 ≤ hi ∧ 128 ≤ b2 ∧ b2 ≤ 191 then
          (((b0 - 224) * 4096 + (b1 - 128) * 64 + (b2 - 128) : Nat), 3)
        else (65533, 1)
      | _ => (65533, 1)
    else if b0 < 245 then
      match rest with
      | b1 :: b2 :: b3 :: _ =>
        let lo := if b0 = 240 then 144 else 128
        let hi := if b0 = 244 then 143 else 191
        if lo ≤ b1 ∧ b1 ≤ hi ∧ 128 ≤ b2 ∧ b2 ≤ 191 ∧ 128 ≤ b3 ∧ b3 ≤ 191 then
          (((b0 - 240) * 262144 + (b1 - 128) * 4096 + (b2 - 128) * 64 + (b3 - 128) : Nat), 4)
        else (65533, 1)
      | _ => (65533, 1)
    else (65533, 1)

/-- Hex digit value (both cases), as accepted by `strconv.ParseUint(_, 16, 64)`. -/
def hexVal (c : Nat) : Option Nat :=
  if 48 ≤ c ∧ c ≤ 57 then some (c - 48)
  else if 65 ≤ c ∧ c ≤ 70 then some (c - 55)
  else if 97 ≤ c ∧ c ≤ 102 then some (c - 87)
  else none

/-- `getu4` (parser.go): decode `\uXXXX` at the start of `s`, or −1. -/
def getu4 (s : GoStr) : Int :=
  match s with
  | c0 :: c1 :: h1 :: h2 :: h3 :: h4 :: _ =>
    if c0 ≠ 92 ∨ c1 ≠ 117 then -1
    else
      match hexVal h1, hexVal h2, hexVal h3, hexVal h4 with
      | some v1, some v2, some v3, some v4 =>
        ((v1 * 4096 + v2 * 256 + v3 * 16 + v4 : Nat) : Int)
      | _, _, _, _ => -1
  | _ => -1

/-- The pre-scan of `unquoteBytes`: length of the prefix with no backslash,
no quote, no control byte and no UTF-8 error byte. -/
def scanClean : Nat → GoStr → Nat
  | _, [] => 0
  | 0, _ :: _ => 0
  | fuel + 1, c :: rest =>
    if c = 92 ∨ c = 34 ∨ c < 32 then 0
    else if c < 128 then 1 + scanClean fuel rest
    else
      let (rr, size) := decodeRuneGo (c :: rest)
      if rr = 65533 ∧ size = 1 then 0
      else size + scanClean fuel ((c :: rest).drop size)

/-- The build loop of `unquoteBytes` (parser.go): processes the remaining
bytes, appending decoded output to `out`; `none` is the `ok=false` return. -/
def uqLoop : Nat → GoStr → GoStr → Option GoStr
  | _, [], out => some out
  | 0, _ :: _, _ => none
  | fuel + 1, c :: rest, out =>
    if c = 92 then
      match rest with
      | [] => none
      | e :: rest2 =>
        if e = 34 ∨ e = 92 ∨ e = 47 ∨ e = 39 then uqLoop fuel rest2 (out ++ [e])
        else if e = 98 then uqLoop fuel rest2 (out ++ [8])
        else if e = 102 then uqLoop fuel rest2 (out ++ [12])
        else if e = 110 then uqLoop fuel rest2 (out ++ [10])
        else if e = 114 then uqLoop fuel rest2 (out ++ [13])
        else if e = 116 then uqLoop fuel rest2 (out ++ [9])
        else if e = 117 then
          let s := c :: e :: rest2
          let rr := getu4 s
          if rr < 0 then none
          else if isSurrogateGo rr then
            let rr1 := getu4 (s.drop 6)
            let dec := utf16DecodeGo rr rr1
            if dec ≠ 65533 then uqLoop fuel (s.drop 12) (out ++ encodeRuneGo dec)
            else uqLoop fuel (s.drop 6) (out ++ encodeRuneGo 65533)
          else uqLoop fuel (s.drop 6) (out ++ encodeRuneGo rr)
        else none
    else if c = 34 ∨ c < 32 then none
    else if c < 128 then uqLoop fuel rest (out ++ [c])
    else
      let (rr, size) := decodeRuneGo (c :: rest)
      uqLoop fuel ((c :: rest).drop size) (out ++ encodeRuneGo rr)

/-- `unquoteBytes` (parser.go): strip the surrounding quotes and decode the
escapes; `none` is the `ok=false` return.  The clean prefix found by the
pre-scan is returned as-is (without copying, in the source). -/
def unquoteBytes (s : GoStr) : Option GoStr :=
  if s.length < 2 ∨ s.getD 0 0 ≠ 34 ∨ s.getD (s.length - 1) 0 ≠ 34 then none
  else
    let s1 := (s.drop 1).take (s.length - 2)
    let r := scanClean (s1.length + 1) s1
    if r = s1.length then some s1
    else uqLoop (s1.length + 1) (s1.drop r) (s1.take r)

/-- `unquote` (parser.go): `string(unquoteBytes s)` — byte-identical here. -/
def unquote (s : GoStr) : Option GoStr := unquoteBytes s

/-- The scanning loop of `parseString` (parser.go): advance `i` over the bytes
of `b` tracking the escaped flag, unquoting on the closing quote.  Fuel equals
`b.length` at the call site, enough for the loop's one-step advances. -/
def strLoop : Nat → GoStr → Nat → Bool → GoStr × Nat × Option SynErr
  | 0, _, i, _ => ([], i, some .strEOF)
  | fuel + 1, b, i, quoted =>
    if i < b.length then
      let c := b.getD i 0
      if !quoted && c == 92 then strLoop fuel b (i + 1) true
      else if !quoted && c == 34 then
        match unquote (b.take (i + 1)) with
        | none => ([], i, some .strUnquoteErr)
        | some s => (s, i + 1, none)
      else strLoop fuel b (i + 1) false
    else ([], i, some .strEOF)

/-- `parseString` (parser.go).  `none` models the panic of `b[0]` on empty
input (no in-source caller passes an empty slice). -/
def parseString (b : GoStr) : Option (GoStr × Nat × Option SynErr) :=
  match b with
  | [] => none
  | c :: _ =>
    if c ≠ 34 then some ([], 0, some (.strExpectQuote c))
    else some (strLoop b.length b 1 false)

/-- Length of the permissive number prefix scanned by `parseNumber`:
digits, `.`, `e`, `E`, `+`, `-`. -/
def numLen : GoStr → Nat
  | [] => 0
  | c :: rest =>
    if (48 ≤ c ∧ c ≤ 57) ∨ c = 46 ∨ c = 101 ∨ c = 69 ∨ c = 43 ∨ c = 45 then
      numLen rest + 1
    else 0

/-- `parseNumber` (parser.go): first byte must be `-` or a digit; the scan
itself is permissive. -/
def parseNumber (b : GoStr) : GoStr × Nat × Option SynErr :=
  match b with
  | [] => (zeroNum, 0, some .numEOF)
  | c :: _ =>
    if c ≠ 45 ∧ (c < 48 ∨ 57 < c) then (zeroNum, 0, some .unknownType)
    else (b.take (numLen b), numLen b, none)

/-- `parseBool` (parser.go): exact prefix match of `true`/`false`. -/
def parseBool (b : GoStr) : Bool × Nat × Option SynErr :=
  if [116, 114, 117, 101].isPrefixOf b then (true, 4, none)
  else if [102, 97, 108, 115, 101].isPrefixOf b then (false, 5, none)
  else (false, 0, some .boolNotTF)

/-- `parseNull` (parser.go): exact prefix match of `null`. -/
def parseNull (b : GoStr) : Nat × Option SynErr :=
  if [110, 117, 108, 108].isPrefixOf b then (4, none)
  else (0, some .nullErr)

/-- Requests of the combined parser step function: `top` is `parse`, `obj` is
`parseObject`, `objL` its member loop (position, state 1–4, accumulated map,
current key), `arr` is `parseArray`, `arrL` its element loop. -/
inductive PReq where
  | top (b : GoStr)
  | obj (b : GoStr)
  | objL (b : GoStr) (i : Nat) (st : Nat) (m : List (GoStr × Json)) (k : GoStr)
  | arr (b : GoStr)
  | arrL (b : GoStr) (i : Nat) (st : Nat) (a : List Json)

/-- Results of the parser step function, one constructor per Go return type.
The map/slice is `none` on the error returns that hand back `nil`. -/
inductive PRes where
  | val (j : Json) (i : Nat) (e : Option SynErr)
  | objR (m : Option (List (GoStr × Json))) (i : Nat) (e : Option SynErr)
  | arrR (a : Option (List Json)) (i : Nat) (e : Option SynErr)

/-- The mutually recursive group `parse`/`parseObject`/`parseArray`
(parser.go) as one fuel-indexed step function (structural recursion on fuel,
so that everything evaluates by kernel reduction).  `none` is a panic (out of
range index — reachable only through `parse` on input that is empty after
whitespace) or fuel exhaustion; the exported wrappers supply fuel that
dominates the source loops' step count.  States in `objL`: 1 member-name,
2 colon, 3 member-value, 4 done; in `arrL`: 1 value, 2 done (the `else`
branches are only reached with these states). -/
def parseStep : Nat → PReq → Option PRes
  | 0, _ => none
  | fuel + 1, req =>
    match req with
    | .top b =>
      let i := skipSpace b
      match b.drop i with
      | [] => none
      | c :: p' =>
        if c = 123 then
          match parseStep fuel (.obj (c :: p')) with
          | some (.objR (some m) ii none) =>
            some (.val (.mk false false none (.obj m) .OBJECT) (i + ii) none)
          | some (.objR _ _ (some e)) =>
            some (.val (.mk false false (some (.syn e)) .null .INVALID) i (some e))
          | _ => none
        else if c = 91 then
          match parseStep fuel (.arr (c :: p')) with
          | some (.arrR (some a) ii none) =>
            some (.val (.mk false false none (.arr a) .ARRAY) (i + ii) none)
          | some (.arrR _ _ (some e)) =>
            some (.val (.mk false false (some (.syn e)) .null .INVALID) i (some e))
          | _ => none
        else if c = 34 then
          match parseString (c :: p') with
          | none => none
          | some (_, _, some e) =>
            some (.val (.mk false false (some (.syn e)) .null .INVALID) i (some e))
          | some (s, ii, none) =>
            some (.val (.mk false false none (.str s) .STRING) (i + ii) none)
        else if c = 116 ∨ c = 102 then
          match parseBool (c :: p') with
          | (_, _, some e) =>
            some (.val (.mk false false (some (.syn e)) .null .INVALID) i (some e))
          | (tf, ii, none) =>
            some (.val (.mk false false none (.bool tf) .BOOL) (i + ii) none)
        else if c = 110 then
          match parseNull (c :: p') with
          | (_, some e) =>
            some (.val (.mk false false (some (.syn e)) .null .INVALID) i (some e))
          | (ii, none) =>
            some (.val (.mk false false none .null .NULL) (i + ii) none)
        else
          match parseNumber (c :: p') with
          | (_, _, some e) =>
            some (.val (.mk false false (some (.syn e)) .null .INVALID) i (some e))
          | (n, ii, none) =>
            some (.val (.mk false false none (.num n) .NUMBER) (i + ii) none)
    | .obj b =>
      match b with
      | [] => some (.objR none 0 (some .objOpenEOF))
      | c :: rest =>
        if c ≠ 123 then some (.objR none 0 (some (.objOpen c)))
        else
          match rest with
          | [] => some (.objR none 1 (some .objCloseEOF))
          | c2 :: _ =>
            if c2 = 125 then some (.objR (some []) 2 none)
            else parseStep fuel (.objL b 1 1 [] [])
    | .objL b i st m k =>
      if i < b.length then
        let c := b.getD i 0
        if isSpace c then parseStep fuel (.objL b (i + 1) st m k)
        else if st = 1 then
          match parseString (b.drop i) with
          | none => none
          | some (_, _, some e) => some (.objR none i (some (.objName e)))
          | some (s, ii, none) => parseStep fuel (.objL b (i + ii) 2 m s)
        else if st = 2 then
          if c ≠ 58 then some (.objR none i (some (.objColon c)))
          else parseStep fuel (.objL b (i + 1) 3 m k)
        else if st = 3 then
          match parseStep fuel (.top (b.drop i)) with
          | none => none
          | some (.val _ _ (some e)) => some (.objR none i (some (.objValue e)))
          | some (.val jj ii none) => parseStep fuel (.objL b (i + ii) 4 (insertGo m k jj) k)
          | some _ => none
        else
          if c = 44 then parseStep fuel (.objL b (i + 1) 1 m k)
          else if c = 125 then some (.objR (some m) (i + 1) none)
          else some (.objR none i (some (.objCommaOrClose c)))
      else some (.objR none i (some .objInternal))
    | .arr b =>
      match b with
      | [] => some (.arrR none 0 (some .arrOpenEOF))
      | c :: rest =>
        if c ≠ 91 then some (.arrR none 0 (some (.arrOpen c)))
        else
          match rest with
          | [] => some (.arrR none 1 (some .arrCloseEOF))
          | c2 :: _ =>
            if c2 = 93 then some (.arrR (some []) 2 none)
            else parseStep fuel (.arrL b 1 1 [])
    | .arrL b i st a =>
      if i < b.length then
        let c := b.getD i 0
        if isSpace c then parseStep fuel (.arrL b (i + 1) st a)
        else if st = 1 then
          match parseStep fuel (.top (b.drop i)) with
          | none => none
          | some (.val _ _ (some e)) => some (.arrR (some a) i (some (.arrValue e)))
          | some (.val jj ii none) => parseStep fuel (.arrL b (i + ii) 2 (a ++ [jj]))
          | some _ => none
        else
          if c = 44 then parseStep fuel (.arrL b (i + 1) 1 a)
          else if c = 93 then some (.arrR (some a) (i + 1) none)
          else some (.arrR none i (some (.arrCommaOrClose c)))
      else some (.arrR none i (some .arrInternal))

/-- Fuel that dominates the total number of loop iterations and recursive
calls the Go parser performs on `b` (each costs at least one byte of progress
or one level of nesting, both bounded by the length). -/
def parseFuel (b : GoStr) : Nat := (b.length + 2) * (b.length + 2)

/-- `parse` (parser.go): the top-level recursive-descent entry point.
`none` models the `p[0]` panic on input that is empty after whitespace. -/
def parse (b : GoStr) : Option (Json × Nat × Option Err) :=
  match parseStep (parseFuel b) (.top b) with
  | some (.val j i e) => some (j, i, e.map Err.syn)
  | _ => none

/-- `parseObject` (parser.go) as an exported wrapper. -/
def parseObject (b : GoStr) : Option (Option (List (GoStr × Json)) × Nat × Option SynErr) :=
  match parseStep (parseFuel b) (.obj b) with
  | some (.objR m i e) => some (m, i, e)
  | _ => none

/-- `Unmarshal` (json.go): parse, then require that only whitespace follows
the first value, reporting `ErrMoreBytes` otherwise. -/
def Unmarshal (data : GoStr) : Option (Json × Option Err) :=
  match parse data with
  | none => none
  | some (j, _, some e) => some (j, some e)
  | some (j, i, none) =>
    let n := skipSpace (data.drop i)
    if n + i ≠ data.length then some (j, some .moreBytes)
    else some (j, none)

/-! ### The skip engine (errors.go). -/

/-- Modelled from the spec: the whitespace predicate `isspace` used by the
skip engine lives in a file that is not under src/; spec §4.1 fixes the set
(space, tab, LF, CR, vertical tab, form feed), the same set as the parser's
`isSpace`. -/
def isspace (b : Nat) : Bool := isSpace b

/-- Modelled from the spec: the skip engine's `skipspace`, the whitespace-
prefix scanner over the §4.1 whitespace set, as used by `jsonskip`. -/
def skipspace (b : GoStr) : Nat := skipSpace b

/-- Requests of the skip-engine step function: `top` is `jsonskip`, `obj` is
`jsonskipObject`, `objL` its loop, `arr`/`arrL` likewise for
`jsonskipArray` (with the running element index `pos`). -/
inductive SReq where
  | top (b : GoStr)
  | obj (b : GoStr)
  | objL (b : GoStr) (i : Nat) (st : Nat)
  | arr (b : GoStr)
  | arrL (b : GoStr) (i : Nat) (st : Nat) (pos : Nat)

/-- `jsonskip`/`jsonskipObject`/`jsonskipArray` (errors.go) as one
fuel-indexed step function returning bytes consumed and an error.  Note the
`'{'`/`'['` dispatch of `jsonskip` returns the sub-skip's count without
adding the skipped whitespace prefix, exactly as the source does. -/
def skipStep : Nat → SReq → Option (Nat × Option SynErr)
  | 0, _ => none
  | fuel + 1, req =>
    match req with
    | .top b =>
      let i := skipspace b
      match b.drop i with
      | [] => some (0, some .jsonEOF)
      | c :: p' =>
        if c = 123 then skipStep fuel (.obj (c :: p'))
        else if c = 91 then skipStep fuel (.arr (c :: p'))
        else if c = 34 then
          match parseString (c :: p') with
          | none => none
          | some (_, ii, e) => some (i + ii, e)
        else if c = 116 ∨ c = 102 then
          match parseBool (c :: p') with
          | (_, ii, e) => some (i + ii, e)
        else if c = 110 then
          match parseNull (c :: p') with
          | (ii, e) => some (i + ii, e)
        else
          match parseNumber (c :: p') with
          | (_, ii, e) => some (i + ii, e)
    | .obj b =>
      match b with
      | [] => some (0, some .objOpenEOF)
      | c :: rest =>
        if c ≠ 123 then some (0, some (.objOpen c))
        else
          match rest with
          | [] => some (1, some .objCloseEOF)
          | c2 :: _ =>
            if c2 = 125 then some (2, none)
            else skipStep fuel (.objL b 1 1)
    | .objL b i st =>
      if i < b.length then
        let c := b.getD i 0
        if isspace c then skipStep fuel (.objL b (i + 1) st)
        else if st = 1 then
          match parseString (b.drop i) with
          | none => none
          | some (_, _, some e) => some (i, some (.objName e))
          | some (_, ii, none) => skipStep fuel (.objL b (i + ii) 2)
        else if st = 2 then
          if c ≠ 58 then some (i, some (.objColon c))
          else skipStep fuel (.objL b (i + 1) 3)
        else if st = 3 then
          match skipStep fuel (.top (b.drop i)) with
          | none => none
          | some (_, some e) => some (i, some (.objValue e))
          | some (ii, none) => skipStep fuel (.objL b (i + ii) 4)
        else
          if c = 44 then skipStep fuel (.objL b (i + 1) 1)
          else if c = 125 then some (i + 1, none)
          else some (i, some (.objCommaOrClose c))
      else some (i, some .objEOF)
    | .arr b =>
      match b with
      | [] => some (0, some .arrOpenEOF)
      | c :: rest =>
        if c ≠ 91 then some (0, some (.arrOpen c))
        else
          match rest with
          | [] => some (1, some .arrCloseEOF)
          | c2 :: _ =>
            if c2 = 93 then some (2, none)
            else skipStep fuel (.arrL b 1 1 0)
    | .arrL b i st pos =>
      if i < b.length then
        let c := b.getD i 0
        if isspace c then skipStep fuel (.arrL b (i + 1) st pos)
        else if st = 1 then
          match skipStep fuel (.top (b.drop i)) with
          | none => none
          | some (_, some e) => some (i, some (.skipArrValue pos e))
          | some (ii, none) => skipStep fuel (.arrL b (i + ii) 2 (pos + 1))
        else
          if c = 44 then skipStep fuel (.arrL b (i + 1) 1 pos)
          else if c = 93 then some (i + 1, none)
          else some (i, some (.arrCommaOrClose c))
      else some (i, some .arrPlain)

/-- `jsonskip` (errors.go): bytes consumed and error for skipping one value. -/
def jsonskip (b : GoStr) : Option (Nat × Option SynErr) :=
  skipStep (parseFuel b) (.top b)

/-- C1 (code bug): on the input `" {}"` (a space before an empty object) the
skip engine consumes 2 bytes where the parser consumes 3: `jsonskip`'s
`'{'`/`'['` cases return the sub-skip's count without adding the whitespace
prefix `i`, unlike its other cases and unlike `parse`.  On empty input the
two also fail differently: `jsonskip` reports `errJSONEOF` while `parse`
panics (models as `none`, see C6). -/
theorem C1_skip_parse_divergence :
    jsonskip [32, 123, 125] = some (2, none)
    ∧ parse [32, 123, 125] = some (.mk false false none (.obj []) .OBJECT, 3, none)
    ∧ (2 : Nat) ≠ 3
    ∧ jsonskip [] = some (0, some .jsonEOF)
    ∧ parse [] = none := by
  exact ⟨rfl, rfl, by decide, rfl, rfl⟩

/-- `skipSpace` consumes the whole list iff every byte is whitespace. -/
theorem skipSpace_all (l : GoStr) (h : ∀ x ∈ l, isSpace x = true) :
    skipSpace l = l.length := by
  induction l with
  | nil => rfl
  | cons c rest ih =>
    have hc := h c (by simp)
    simp [skipSpace, hc, ih (fun x hx => h x (by simp [hx]))]

/-- `skipSpace` stops short of the end when some byte is not whitespace. -/
theorem skipSpace_lt (l : GoStr) (h : ∃ x ∈ l, isSpace x = false) :
    skipSpace l < l.length := by
  induction l with
  | nil => simp at h
  | cons c rest ih =>
    by_cases hc : isSpace c
    · have : ∃ x ∈ rest, isSpace x = false := by
        rcases h with ⟨x, hx, hxs⟩
        rcases List.mem_cons.mp hx with rfl | hx'
        · exact absurd hc (by simp [hxs])
        · exact ⟨x, hx', hxs⟩
      have ihh := ih this
      simp only [skipSpace, hc, if_true, List.length_cons]
      omega
    · simp [skipSpace, hc]

/-- C5: whenever `parse` succeeds on a prefix, `Unmarshal` succeeds exactly
when only whitespace follows the value, and reports the dedicated
`ErrMoreBytes` — an error distinct from every syntax error — when a
non-whitespace byte follows. -/
theorem C5_trailing :
    (∀ (data : GoStr) (j : Json) (i : Nat), parse data = some (j, i, none) →
      i ≤ data.length →
      ((∀ x ∈ data.drop i, isSpace x = true) → Unmarshal data = some (j, none))
      ∧ ((∃ x ∈ data.drop i, isSpace x = false) →
          Unmarshal data = some (j, some .moreBytes)))
    ∧ (∀ e : SynErr, Err.moreBytes ≠ Err.syn e) := by
  constructor
  · intro data j i h hi
    constructor
    · intro hall
      have hs : skipSpace (data.drop i) = (data.drop i).length := skipSpace_all _ hall
      have hlen : (data.drop i).length = data.length - i := by simp
      unfold Unmarshal
      rw [h]
      simp only [hs, hlen]
      rw [if_neg (by omega)]
    · intro hex
      have hs : skipSpace (data.drop i) < (data.drop i).length := skipSpace_lt _ hex
      have hlen : (data.drop i).length = data.length - i := by simp
      unfold Unmarshal
      rw [h]
      simp only []
      rw [if_pos (by omega)]
  · intro e h
    exact Err.noConfusion h

/-- C5 witness: `"1 "` parses and unmarshals cleanly; `"1!"` parses but
unmarshals to `ErrMoreBytes`; `ErrMoreBytes` differs from the `Unknown type`
syntax error. -/
theorem C5_trailing_witness :
    Unmarshal [49, 32] = some (.mk false false none (.num [49]) .NUMBER, none)
    ∧ Unmarshal [49, 33] = some (.mk false false none (.num [49]) .NUMBER, some .moreBytes)
    ∧ Err.moreBytes ≠ Err.syn .unknownType := by
  refine ⟨?_, ?_, C5_trailing.2 .unknownType⟩
  · exact (C5_trailing.1 [49, 32] (.mk false false none (.num [49]) .NUMBER) 1 rfl
      (by decide)).1 (by decide)
  · exact (C5_trailing.1 [49, 33] (.mk false false none (.num [49]) .NUMBER) 1 rfl
      (by decide)).2 ⟨33, by decide, by decide⟩

/-- C6 (code bug): `parse` reads `p[0]` without a bounds check, so on the
empty input and on whitespace-only input the slice index is out of range and
the Go process panics (modelled as `none`) instead of an error being returned
to the caller; `Unmarshal` inherits the panic. -/
theorem C6_parse_panics :
    parse [] = none ∧ parse [32, 9, 10] = none
    ∧ Unmarshal [] = none ∧ Unmarshal [32] = none := by
  exact ⟨rfl, rfl, rfl, rfl⟩

/-! ### A members-sequence view of `parseObject`, for the duplicate-key claim.

`membersStep` re-runs the member loop of `parseObject` but returns the list
of `(name, value)` pairs in document order instead of folding them into the
map; `objL_eq_members` proves the loop equal to inserting that sequence into
the accumulator in order, so "last write wins" can be stated against the
document-order sequence. -/

/-- The member loop of `parseObject`, returning members in document order. -/
def membersStep : Nat → GoStr → Nat → Nat → GoStr →
    Option (Option (List (GoStr × Json)) × Nat × Option SynErr)
  | 0, _, _, _, _ => none
  | fuel + 1, b, i, st, k =>
    if i < b.length then
      let c := b.getD i 0
      if isSpace c then membersStep fuel b (i + 1) st k
      else if st = 1 then
        match parseString (b.drop i) with
        | none => none
        | some (_, _, some e) => some (none, i, some (.objName e))
        | some (s, ii, none) => membersStep fuel b (i + ii) 2 s
      else if st = 2 then
        if c ≠ 58 then some (none, i, some (.objColon c))
        else membersStep fuel b (i + 1) 3 k
      else if st = 3 then
        match parseStep fuel (.top (b.drop i)) with
        | none => none
        | some (.val _ _ (some e)) => some (none, i, some (.objValue e))
        | some (.val jj ii none) =>
          match membersStep fuel b (i + ii) 4 k with
          | none => none
          | some (none, i', e) => some (none, i', e)
          | some (some ms, i', e) => some (some ((k, jj) :: ms), i', e)
        | some _ => none
      else
        if c = 44 then membersStep fuel b (i + 1) 1 k
        else if c = 125 then some (some [], i + 1, none)
        else some (none, i, some (.objCommaOrClose c))
    else some (none, i, some .objInternal)

/-- Fold a member sequence into an accumulator map with Go map assignment. -/
def applyMembers (m : List (GoStr × Json)) :
    Option (List (GoStr × Json)) → Option (List (GoStr × Json))
  | none => none
  | some ms => some (ms.foldl (fun acc kv => insertGo acc kv.1 kv.2) m)

/-- The object member loop equals the members-sequence view folded into the
accumulator: `m[k] = v` assignments in document order. -/
theorem objL_eq_members : ∀ (fuel : Nat) (b : GoStr) (i st : Nat)
    (m : List (GoStr × Json)) (k : GoStr),
    parseStep fuel (.objL b i st m k)
      = (membersStep fuel b i st k).map
          (fun r => PRes.objR (applyMembers m r.1) r.2.1 r.2.2) := by
  intro fuel
  induction fuel with
  | zero => intro b i st m k; rfl
  | succ fuel ih =>
    intro b i st m k
    simp only [parseStep, membersStep]
    by_cases h1 : i < b.length
    · simp only [if_pos h1]
      by_cases h2 : isSpace (b.getD i 0) = true
      · simp only [if_pos h2]
        exact ih b (i + 1) st m k
      · simp only [if_neg h2]
        by_cases h3 : st = 1
        · simp only [if_pos h3]
          match hps : parseString (b.drop i) with
          | none => rfl
          | some (_, _, some e) => rfl
          | some (s, ii, none) => exact ih b (i + ii) 2 m s
        · simp only [if_neg h3]
          by_cases h4 : st = 2
          · simp only [if_pos h4]
            by_cases h5 : b.getD i 0 ≠ 58
            · simp only [if_pos h5]; rfl
            · simp only [if_neg h5]
              exact ih b (i + 1) 3 m k
          · simp only [if_neg h4]
            by_cases h6 : st = 3
            · simp only [if_pos h6]
              match hps : parseStep fuel (.top (b.drop i)) with
              | none => rfl
              | some (.val _ _ (some e)) => rfl
              | some (.val jj ii none) =>
                show parseStep fuel (.objL b (i + ii) 4 (insertGo m k jj) k)
                    = Option.map (fun r => PRes.objR (applyMembers m r.1) r.2.1 r.2.2)
                        (match membersStep fuel b (i + ii) 4 k with
                          | none => none
                          | some (none, i', e) => some (none, i', e)
                          | some (some ms, i', e) => some (some ((k, jj) :: ms), i', e))
                rw [ih b (i + ii) 4 (insertGo m k jj) k]
                match hms : membersStep fuel b (i + ii) 4 k with
                | none => rfl
                | some (none, i', e) => rfl
                | some (some ms, i', e) => rfl
              | some (.objR _ _ _) => rfl
              | some (.arrR _ _ _) => rfl
            · simp only [if_neg h6]
              by_cases h7 : b.getD i 0 = 44
              · simp only [if_pos h7]
                exact ih b (i + 1) 1 m k
              · simp only [if_neg h7]
                by_cases h8 : b.getD i 0 = 125
                · simp only [if_pos h8]; rfl
                · simp only [if_neg h8]; rfl
    · simp only [if_neg h1]; rfl

/-- The `parseObject` preamble over the members-sequence view. -/
def membersObjStep : Nat → GoStr →
    Option (Option (List (GoStr × Json)) × Nat × Option SynErr)
  | 0, _ => none
  | fuel + 1, b =>
    match b with
    | [] => some (none, 0, some .objOpenEOF)
    | c :: rest =>
      if c ≠ 123 then some (none, 0, some (.objOpen c))
      else
        match rest with
        | [] => some (none, 1, some .objCloseEOF)
        | c2 :: _ =>
          if c2 = 125 then some (some [], 2, none)
          else membersStep fuel b 1 1 []

/-- `parseObject`, but returning the member sequence in document order. -/
def parseMembers (b : GoStr) : Option (Option (List (GoStr × Json)) × Nat × Option SynErr) :=
  membersObjStep (parseFuel b) b

/-- `parseObject` builds exactly the map obtained by inserting the
document-order member sequence into the empty map. -/
theorem parseObject_eq_members (b : GoStr) :
    parseObject b
      = (parseMembers b).map (fun r => (applyMembers [] r.1, r.2.1, r.2.2)) := by
  have step : ∀ fuel, parseStep fuel (.obj b)
      = (membersObjStep fuel b).map
          (fun r => PRes.objR (applyMembers [] r.1) r.2.1 r.2.2) := by
    intro fuel
    match fuel with
    | 0 => rfl
    | fuel + 1 =>
      simp only [parseStep, membersObjStep]
      match b with
      | [] => rfl
      | c :: rest =>
        by_cases hc : c ≠ 123
        · simp only [if_pos hc]; rfl
        · simp only [if_neg hc]
          match rest with
          | [] => rfl
          | c2 :: rest2 =>
            by_cases hc2 : c2 = 125
            · simp only [if_pos hc2]; rfl
            · simp only [if_neg hc2]
              exact objL_eq_members fuel (c :: c2 :: rest2) 1 1 [] []
  unfold parseObject parseMembers
  rw [step (parseFuel b)]
  match hm : membersObjStep (parseFuel b) b with
  | none => rfl
  | some (ms, i, e) => rfl

/-- The value of the last occurrence of a key in a member sequence. -/
def lastOcc : List (GoStr × Json) → GoStr → Option Json
  | [], _ => none
  | (k, v) :: rest, key =>
    match lastOcc rest key with
    | some r => some r
    | none => if k = key then some v else none

/-- Lookup after a Go map assignment. -/
theorem lookup_insertGo (m : List (GoStr × Json)) (k : GoStr) (v : Json) (key : GoStr) :
    lookupGo (insertGo m k v) key = if k = key then some v else lookupGo m key := by
  induction m with
  | nil => rfl
  | cons kv rest ih =>
    obtain ⟨k0, v0⟩ := kv
    by_cases h0 : k0 = k
    · subst h0
      simp only [insertGo, if_pos rfl, lookupGo]
      by_cases hk : k0 = key
      · simp [hk]
      · simp [hk, lookupGo]
    · simp only [insertGo, if_neg h0, lookupGo]
      by_cases hk : k0 = key
      · subst hk
        have : ¬ k = k0 := fun h => h0 h.symm
        simp [this]
      · simp [hk, ih]

/-- Lookup in a fold of Go map assignments: the last occurrence wins, with
the accumulator as fallback. -/
theorem lookup_foldIns (ms : List (GoStr × Json)) (m : List (GoStr × Json)) (key : GoStr) :
    lookupGo (ms.foldl (fun acc kv => insertGo acc kv.1 kv.2) m) key
      = match lastOcc ms key with
        | some v => some v
        | none => lookupGo m key := by
  induction ms generalizing m with
  | nil => rfl
  | cons kv rest ih =>
    obtain ⟨k, v⟩ := kv
    simp only [List.foldl_cons, lastOcc]
    rw [ih]
    match h : lastOcc rest key with
    | some r => rfl
    | none =>
      simp only [lookup_insertGo]
      by_cases hk : k = key
      · simp [hk]
      · simp [hk]

/-- Keys after a Go map assignment are among the old keys plus the new key. -/
theorem mem_keys_insertGo (m : List (GoStr × Json)) (k : GoStr) (v : Json) (x : GoStr)
    (h : x ∈ (insertGo m k v).map Prod.fst) : x ∈ m.map Prod.fst ∨ x = k := by
  induction m with
  | nil =>
    simp [insertGo] at h
    exact Or.inr h
  | cons kv rest ih =>
    obtain ⟨k0, v0⟩ := kv
    by_cases h0 : k0 = k
    · simp only [insertGo, if_pos h0, List.map_cons] at h
      exact Or.inl h
    · simp only [insertGo, if_neg h0, List.map_cons] at h
      rcases List.mem_cons.mp h with h1 | h1
      · exact Or.inl (by simp [h1])
      · rcases ih h1 with h2 | h2
        · exact Or.inl (List.mem_cons.mpr (Or.inr h2))
        · exact Or.inr h2

/-- A Go map assignment keeps the key list duplicate-free. -/
theorem nodup_insertGo (m : List (GoStr × Json)) (k : GoStr) (v : Json)
    (h : (m.map Prod.fst).Nodup) : ((insertGo m k v).map Prod.fst).Nodup := by
  induction m with
  | nil => simp [insertGo]
  | cons kv rest ih =>
    obtain ⟨k0, v0⟩ := kv
    by_cases h0 : k0 = k
    · simpa [insertGo, if_pos h0] using h
    · simp only [List.map_cons, List.nodup_cons] at h
      simp only [insertGo, if_neg h0, List.map_cons, List.nodup_cons]
      refine ⟨?_, ih h.2⟩
      intro hmem
      rcases mem_keys_insertGo rest k v k0 hmem with h1 | h1
      · exact h.1 h1
      · exact h0 h1

/-- Folding member assignments keeps the key list duplicate-free. -/
theorem nodup_foldIns (ms : List (GoStr × Json)) (m : List (GoStr × Json))
    (h : (m.map Prod.fst).Nodup) :
    (((ms.foldl (fun acc kv => insertGo acc kv.1 kv.2) m)).map Prod.fst).Nodup := by
  induction ms generalizing m with
  | nil => exact h
  | cons kv rest ih =>
    exact ih _ (nodup_insertGo m kv.1 kv.2 h)

/-- The object text `{"a":1,"b":2,"a":3}` (duplicate member name `a`). -/
def dupObjBytes : GoStr :=
  [123, 34, 97, 34, 58, 49, 44, 34, 98, 34, 58, 50, 44, 34, 97, 34, 58, 51, 125]

/-- The value tree parsed from `dupObjBytes`. -/
def dupObjJson : Json :=
  .mk false false none
    (.obj [([97], .mk false false none (.num [51]) .NUMBER),
           ([98], .mk false false none (.num [50]) .NUMBER)]) .OBJECT

/-- C9: whenever `parseObject` succeeds, the resulting map is the fold of the
document-order member sequence under Go map assignment, so its keys are
duplicate-free and every name maps to the value of its last occurrence in
document order; duplicates are no error — `{"a":1,"b":2,"a":3}` parses
cleanly, `a` maps to 3 (its member sequence retains all three occurrences in
order, and the last one wins). -/
theorem C9_last_write_wins :
    (∀ (b : GoStr) (m : List (GoStr × Json)) (i : Nat),
        parseObject b = some (some m, i, none) →
        (m.map Prod.fst).Nodup
        ∧ ∃ ms, parseMembers b = some (some ms, i, none)
            ∧ m = ms.foldl (fun acc kv => insertGo acc kv.1 kv.2) []
            ∧ ∀ key, lookupGo m key = lastOcc ms key)
    ∧ (Unmarshal dupObjBytes = some (dupObjJson, none)
        ∧ dupObjJson.Member [97] = .mk false false none (.num [51]) .NUMBER
        ∧ dupObjJson.Keys = ([[97], [98]], none)
        ∧ ([[97], [98]] : List GoStr).Nodup
        ∧ parseMembers dupObjBytes
            = some (some [([97], .mk false false none (.num [49]) .NUMBER),
                          ([98], .mk false false none (.num [50]) .NUMBER),
                          ([97], .mk false false none (.num [51]) .NUMBER)], 19, none)
        ∧ lastOcc [([97], .mk false false none (.num [49]) .NUMBER),
                   ([98], .mk false false none (.num [50]) .NUMBER),
                   ([97], .mk false false none (.num [51]) .NUMBER)] [97]
            = some (.mk false false none (.num [51]) .NUMBER)) := by
  constructor
  · intro b m i h
    rw [parseObject_eq_members] at h
    match hpm : parseMembers b with
    | none => rw [hpm] at h; exact absurd h (by simp)
    | some (none, i', e') =>
      rw [hpm] at h
      simp [applyMembers] at h
    | some (some ms, i', e') =>
      rw [hpm] at h
      simp only [Option.map_some, applyMembers, Option.some.injEq, Prod.mk.injEq] at h
      obtain ⟨hm, hi, he⟩ := h
      refine ⟨nodup_foldIns ms [] (by simp), ms, rfl, rfl, ?_⟩
      intro key
      rw [lookup_foldIns]
      cases hx : lastOcc ms key <;> simp [hx, lookupGo]
  · exact ⟨rfl, rfl, rfl, by decide, rfl, rfl⟩

/-- The map parsed from `dupObjBytes`: last write wins, keys unique. -/
def dupObjMap : List (GoStr × Json) :=
  [([97], .mk false false none (.num [51]) .NUMBER),
   ([98], .mk false false none (.num [50]) .NUMBER)]

/-- C9 witness: the general statement applied to the duplicate-key object
`{"a":1,"b":2,"a":3}`, whose parse succeeds with the hypothesis discharged by
computation. -/
theorem C9_last_write_wins_witness :
    (dupObjMap.map Prod.fst).Nodup
    ∧ ∃ ms, parseMembers dupObjBytes = some (some ms, 19, none)
        ∧ dupObjMap = ms.foldl (fun acc kv => insertGo acc kv.1 kv.2) []
        ∧ ∀ key, lookupGo dupObjMap key = lastOcc ms key :=
  C9_last_write_wins.1 dupObjBytes dupObjMap 19 rfl

/-! ### Unescaping claims (C8). -/

/-- An uppercase hex digit byte. -/
def hexDigit (x : Nat) : Nat := if x < 10 then 48 + x else 55 + x

/-- Four-hex-digit rendering of a code unit, as written in a `\uXXXX` escape. -/
def toHex4 (r : Int) : GoStr :=
  [hexDigit (r.toNat / 4096 % 16), hexDigit (r.toNat / 256 % 16),
   hexDigit (r.toNat / 16 % 16), hexDigit (r.toNat % 16)]

/-- `hexVal` decodes `hexDigit`. -/
theorem hexVal_hexDigit (x : Nat) (h : x < 16) : hexVal (hexDigit x) = some x := by
  unfold hexDigit hexVal
  by_cases hx : x < 10
  · rw [if_pos hx, if_pos (by omega : 48 ≤ 48 + x ∧ 48 + x ≤ 57)]
    congr 1
    omega
  · rw [if_neg hx, if_neg (by omega : ¬(48 ≤ 55 + x ∧ 55 + x ≤ 57)),
      if_pos (by omega : 65 ≤ 55 + x ∧ 55 + x ≤ 70)]
    congr 1
    omega

/-- `getu4` decodes a rendered `\uXXXX` escape. -/
theorem getu4_toHex4 (r : Int) (h0 : 0 ≤ r) (h1 : r < 65536) (rest : GoStr) :
    getu4 (92 :: 117 :: toHex4 r ++ rest) = r := by
  obtain ⟨n, rfl⟩ := Int.eq_ofNat_of_zero_le h0
  have hn : n < 65536 := by exact_mod_cast h1
  have e1 : hexVal (hexDigit (n / 4096 % 16)) = some (n / 4096 % 16) :=
    hexVal_hexDigit _ (by omega)
  have e2 : hexVal (hexDigit (n / 256 % 16)) = some (n / 256 % 16) :=
    hexVal_hexDigit _ (by omega)
  have e3 : hexVal (hexDigit (n / 16 % 16)) = some (n / 16 % 16) :=
    hexVal_hexDigit _ (by omega)
  have e4 : hexVal (hexDigit (n % 16)) = some (n % 16) :=
    hexVal_hexDigit _ (by omega)
  simp only [toHex4, Int.toNat_natCast, List.cons_append, List.nil_append, getu4,
    e1, e2, e3, e4, ne_eq]
  norm_num
  omega

/-- The unquote loop finishes when no bytes remain. -/
theorem uqLoop_nil (fuel : Nat) (out : GoStr) : uqLoop fuel [] out = some out := by
  cases fuel <;> rfl

/-- One `\uXXXX` escape of a non-surrogate BMP code point decodes to its
UTF-8 encoding. -/
theorem uqLoop_bmp (fuel : Nat) (r : Int) (out : GoStr) (h0 : 0 ≤ r) (h1 : r < 55296) :
    uqLoop (fuel + 1) (92 :: 117 :: toHex4 r) out = some (out ++ encodeRuneGo r) := by
  have hg : getu4 (92 :: 117 :: toHex4 r) = r := by
    simpa using getu4_toHex4 r h0 (by omega) []
  have hdrop6 : (92 :: 117 :: toHex4 r).drop 6 = ([] : GoStr) := by simp [toHex4]
  show (if getu4 (92 :: 117 :: toHex4 r) < 0 then none
      else if isSurrogateGo (getu4 (92 :: 117 :: toHex4 r)) then
        if utf16DecodeGo (getu4 (92 :: 117 :: toHex4 r))
            (getu4 ((92 :: 117 :: toHex4 r).drop 6)) ≠ 65533 then
          uqLoop fuel ((92 :: 117 :: toHex4 r).drop 12)
            (out ++ encodeRuneGo (utf16DecodeGo (getu4 (92 :: 117 :: toHex4 r))
              (getu4 ((92 :: 117 :: toHex4 r).drop 6))))
        else uqLoop fuel ((92 :: 117 :: toHex4 r).drop 6) (out ++ encodeRuneGo 65533)
      else uqLoop fuel ((92 :: 117 :: toHex4 r).drop 6)
        (out ++ encodeRuneGo (getu4 (92 :: 117 :: toHex4 r))))
      = some (out ++ encodeRuneGo r)
  rw [hg, if_neg (by omega : ¬ (r < 0)),
    if_neg (by simp only [isSurrogateGo, decide_eq_true_eq]; omega :
      ¬ (isSurrogateGo r = true)),
    hdrop6, uqLoop_nil]

/-- A `\uXXXX\uYYYY` high–low surrogate pair decodes to the UTF-8 encoding of
the combined code point given by the standard formula. -/
theorem uqLoop_pair (fuel : Nat) (r1 r2 : Int) (out : GoStr)
    (h1 : 55296 ≤ r1) (h2 : r1 < 56320) (h3 : 56320 ≤ r2) (h4 : r2 < 57344) :
    uqLoop (fuel + 1) (92 :: 117 :: toHex4 r1 ++ 92 :: 117 :: toHex4 r2) out
      = some (out ++ encodeRuneGo ((r1 - 55296) * 1024 + (r2 - 56320) + 65536)) := by
  have hg1 : getu4 (92 :: 117 :: toHex4 r1 ++ 92 :: 117 :: toHex4 r2) = r1 :=
    getu4_toHex4 r1 (by omega) (by omega) _
  have hdrop6 : (92 :: 117 :: toHex4 r1 ++ 92 :: 117 :: toHex4 r2).drop 6
      = 92 :: 117 :: toHex4 r2 := by simp [toHex4]
  have hg2 : getu4 ((92 :: 117 :: toHex4 r1 ++ 92 :: 117 :: toHex4 r2).drop 6) = r2 := by
    rw [hdrop6]
    simpa using getu4_toHex4 r2 (by omega) (by omega) []
  have hdrop12 : (92 :: 117 :: toHex4 r1 ++ 92 :: 117 :: toHex4 r2).drop 12
      = ([] : GoStr) := by simp [toHex4]
  have hdec : utf16DecodeGo r1 r2 = (r1 - 55296) * 1024 + (r2 - 56320) + 65536 := by
    unfold utf16DecodeGo
    rw [if_pos ⟨h1, h2, h3, h4⟩]
  show (if getu4 (92 :: 117 :: toHex4 r1 ++ 92 :: 117 :: toHex4 r2) < 0 then none
      else if isSurrogateGo (getu4 (92 :: 117 :: toHex4 r1 ++ 92 :: 117 :: toHex4 r2)) then
        if utf16DecodeGo (getu4 (92 :: 117 :: toHex4 r1 ++ 92 :: 117 :: toHex4 r2))
            (getu4 ((92 :: 117 :: toHex4 r1 ++ 92 :: 117 :: toHex4 r2).drop 6)) ≠ 65533 then
          uqLoop fuel ((92 :: 117 :: toHex4 r1 ++ 92 :: 117 :: toHex4 r2).drop 12)
            (out ++ encodeRuneGo
              (utf16DecodeGo (getu4 (92 :: 117 :: toHex4 r1 ++ 92 :: 117 :: toHex4 r2))
                (getu4 ((92 :: 117 :: toHex4 r1 ++ 92 :: 117 :: toHex4 r2).drop 6))))
        else uqLoop fuel ((92 :: 117 :: toHex4 r1 ++ 92 :: 117 :: toHex4 r2).drop 6)
          (out ++ encodeRuneGo 65533)
      else uqLoop fuel ((92 :: 117 :: toHex4 r1 ++ 92 :: 117 :: toHex4 r2).drop 6)
        (out ++ encodeRuneGo (getu4 (92 :: 117 :: toHex4 r1 ++ 92 :: 117 :: toHex4 r2))))
      = some (out ++ encodeRuneGo ((r1 - 55296) * 1024 + (r2 - 56320) + 65536))
  rw [hg1, hg2, if_neg (by omega : ¬ (r1 < 0)),
    if_pos (by simp only [isSurrogateGo, decide_eq_true_eq]; omega :
      isSurrogateGo r1 = true),
    hdec, if_pos (by omega : ((r1 - 55296) * 1024 + (r2 - 56320) + 65536 : Int) ≠ 65533),
    hdrop12, uqLoop_nil]

/-- C8: unescaping decodes the eight standard escapes (the input is the
quoted literal `\" \\ \/ \b \f \n \r \t`); a `\uXXXX` escape of any
non-surrogate BMP code point decodes to that code point's UTF-8 encoding;
any high–low surrogate pair `\uXXXX\uYYYY` decodes to the single code point
`(hi−D800)·400 + (lo−DC00) + 10000` (hex) per the standard formula — in
particular `"😀"` decodes to the four UTF-8 bytes of U+1F600 (😀),
also through `parseString` — and an unpaired surrogate (`"\uD800x"`) decodes
to the replacement character U+FFFD rather than failing. -/
theorem C8_unescape :
    unquoteBytes [34, 92, 34, 92, 92, 92, 47, 92, 98, 92, 102, 92, 110, 92, 114, 92, 116, 34]
      = some [34, 92, 47, 8, 12, 10, 13, 9]
    ∧ (∀ r : Int, 0 ≤ r → r < 55296 →
        unquoteBytes (34 :: 92 :: 117 :: toHex4 r ++ [34]) = some (encodeRuneGo r))
    ∧ (∀ r1 r2 : Int, 55296 ≤ r1 → r1 < 56320 → 56320 ≤ r2 → r2 < 57344 →
        unquoteBytes (34 :: (92 :: 117 :: toHex4 r1 ++ 92 :: 117 :: toHex4 r2) ++ [34])
          = some (encodeRuneGo ((r1 - 55296) * 1024 + (r2 - 56320) + 65536)))
    ∧ unquoteBytes [34, 92, 117, 68, 56, 51, 68, 92, 117, 68, 69, 48, 48, 34]
      = some [240, 159, 152, 128]
    ∧ parseString [34, 92, 117, 68, 56, 51, 68, 92, 117, 68, 69, 48, 48, 34]
      = some ([240, 159, 152, 128], 14, none)
    ∧ unquoteBytes [34, 92, 117, 68, 56, 48, 48, 120, 34]
      = some [239, 191, 189, 120] := by
  refine ⟨rfl, ?_, ?_, rfl, rfl, rfl⟩
  · intro r h0 h1
    show uqLoop (6 + 1) (92 :: 117 :: toHex4 r) [] = some (encodeRuneGo r)
    exact uqLoop_bmp 6 r [] h0 h1
  · intro r1 r2 h1 h2 h3 h4
    show uqLoop (12 + 1) (92 :: 117 :: toHex4 r1 ++ 92 :: 117 :: toHex4 r2) []
        = some (encodeRuneGo ((r1 - 55296) * 1024 + (r2 - 56320) + 65536))
    exact uqLoop_pair 12 r1 r2 [] h1 h2 h3 h4

/-- C8 witness: the quantified parts instantiated at `A` (→ `A`) and at
the surrogate pair `😀` (→ the UTF-8 bytes of U+1F600). -/
theorem C8_unescape_witness :
    unquoteBytes (34 :: 92 :: 117 :: toHex4 65 ++ [34]) = some (encodeRuneGo 65)
    ∧ unquoteBytes (34 :: (92 :: 117 :: toHex4 55357 ++ 92 :: 117 :: toHex4 56832) ++ [34])
      = some (encodeRuneGo ((55357 - 55296) * 1024 + (56832 - 56320) + 65536)) := by
  constructor
  · exact C8_unescape.2.1 65 (by decide) (by decide)
  · exact C8_unescape.2.2.1 55357 56832 (by decide) (by decide) (by decide) (by decide)
